import Mathlib

/-!
Verification of the MST storage layer (IndexedDB persistence, backup/restore,
migration, vacuum) against its natural-language specification.

The JavaScript sources are shallowly embedded:
* records are structures with `Option` fields for properties that may be
  absent (`undefined` in JS);
* ISO-8601 timestamp strings are modelled by `Nat` values (milliseconds since
  the epoch); `new Date(s).getTime()` and string creation are order- and
  equality-faithful for the ISO strings the app produces;
* JS truthiness of a numeric field is `some n` with `n ≠ 0`; an ISO date
  string is non-empty, hence truthy exactly when present;
* asynchronous store reads are made explicit: every function receives the
  store state (and the clock value) it reads.
-/

set_option linter.unusedVariables false

namespace MST

/-- A record of any of the three collections (workers, projects, work
entries).  `payload` stands for all remaining data fields, which the storage
layer copies verbatim (JS object spread). -/
structure Rec where
  id : Nat
  updatedAt : Option Nat
  createdAt : Option Nat
  timestamp : Option Nat
  deleted : Bool
  deletedAt : Option Nat
  payload : Nat
deriving Repr, DecidableEq

/-- The three live collections held in the `records` object store
(`src/storage/indexeddb.js`). -/
structure Store where
  workers : List Rec
  projects : List Rec
  workEntries : List Rec
deriving Repr, DecidableEq

/-! ## IndexedDB write paths (`src/storage/indexeddb.js`) -/

/-- `DB_VERSION` from `indexeddb.js`. -/
def DB_VERSION : Nat := 1

/-- Timestamp backfill of `saveWorkers`:
`{ ...w, updatedAt: w.updatedAt || now, createdAt: w.createdAt || now }`. -/
def backfillWorker (now : Nat) (w : Rec) : Rec :=
  { w with
    updatedAt := some (w.updatedAt.getD now)
    createdAt := some (w.createdAt.getD now) }

/-- `saveWorkers(workers)`: maps the timestamp backfill over the list and
stores the result (the IndexedDB `put` replaces the whole collection). -/
def saveWorkers (now : Nat) (ws : List Rec) : List Rec :=
  ws.map (backfillWorker now)

/-- Timestamp backfill of `saveProjects`:
`createdAt: p.createdAt || (p.createdAt ? new Date(p.createdAt).toISOString() : now)`;
when `p.createdAt` is truthy the first disjunct already keeps it, so the
fallback value is `now`. -/
def backfillProject (now : Nat) (p : Rec) : Rec :=
  { p with
    updatedAt := some (p.updatedAt.getD now)
    createdAt := some (p.createdAt.getD now) }

/-- `saveProjects(projects)`. -/
def saveProjects (now : Nat) (ps : List Rec) : List Rec :=
  ps.map (backfillProject now)

/-- JS truthiness of a numeric field: present and non-zero. -/
def numTruthy : Option Nat → Bool
  | none => false
  | some n => n != 0

/-- Timestamp backfill of `saveWorkEntries`:
`createdAt: e.createdAt || (e.timestamp ? new Date(e.timestamp).toISOString() : now)` —
a missing `createdAt` is filled from the entry timestamp when that is truthy,
and only otherwise from the current time. -/
def backfillEntry (now : Nat) (e : Rec) : Rec :=
  { e with
    updatedAt := some (e.updatedAt.getD now)
    createdAt := some (match e.createdAt with
      | some c => c
      | none => match e.timestamp with
        | some t => if t != 0 then t else now
        | none => now) }

/-- `saveWorkEntries(entries)`. -/
def saveWorkEntries (now : Nat) (es : List Rec) : List Rec :=
  es.map (backfillEntry now)

/-- `saveAllData(data)`: writes all three collections. -/
def saveAllData (now : Nat) (d : Store) : Store :=
  { workers := saveWorkers now d.workers
    projects := saveProjects now d.projects
    workEntries := saveWorkEntries now d.workEntries }

/-! ## Vacuum (`src/unnamed/part_010`) -/

/-- `VACUUM_RETENTION_DAYS`. -/
def VACUUM_RETENTION_DAYS : Nat := 90

/-- One day in milliseconds. -/
def dayMs : Nat := 24 * 60 * 60 * 1000

/-- `VACUUM_RETENTION_DAYS * 24 * 60 * 60 * 1000`. -/
def retentionMs : Nat := VACUUM_RETENTION_DAYS * dayMs

/-- `shouldVacuum(entry)`: a record is purged when it carries the `deleted`
marker and `now - deletedAt` strictly exceeds the retention window; a missing
`deletedAt` is read as epoch 0 (`new Date(undefined)` is avoided by the
explicit `entry.deletedAt ? ... : 0`). Ages are signed (`Int`), as in JS. -/
def shouldVacuum (now : Nat) (e : Rec) : Bool :=
  if !e.deleted then false
  else
    let entryDate : Int := match e.deletedAt with
      | some t => (t : Int)
      | none => 0
    decide ((now : Int) - entryDate > (retentionMs : Int))

/-- Report of `runVacuum`. -/
structure VacReport where
  entriesRemoved : Nat
  workersRemoved : Nat
  projectsRemoved : Nat
deriving Repr, DecidableEq

/-- JS `Array.filter` with a removal counter incremented in the callback, as
used by `runVacuum`. -/
def filterCount (p : Rec → Bool) (l : List Rec) : List Rec × Nat :=
  l.foldl (fun acc r => if p r then (acc.1 ++ [r], acc.2) else (acc.1, acc.2 + 1))
    ([], 0)

/-- `runVacuum()`: filters each collection by `shouldVacuum`, counts the
removed records, and persists the survivors through `saveAllData`. -/
def runVacuum (now : Nat) (s : Store) : Store × VacReport :=
  let es := filterCount (fun e => !shouldVacuum now e) s.workEntries
  let ws := filterCount (fun w => !shouldVacuum now w) s.workers
  let ps := filterCount (fun p => !shouldVacuum now p) s.projects
  (saveAllData now { workers := ws.1, projects := ps.1, workEntries := es.1 },
   { entriesRemoved := es.2, workersRemoved := ws.2, projectsRemoved := ps.2 })

/-! ### Generic counting-filter lemma -/

theorem filterCount_go (p : Rec → Bool) (l : List Rec) (acc : List Rec) (k : Nat) :
    l.foldl (fun acc r => if p r then (acc.1 ++ [r], acc.2) else (acc.1, acc.2 + 1))
      (acc, k)
      = (acc ++ l.filter p, k + (l.filter (fun r => !p r)).length) := by
  induction l generalizing acc k with
  | nil => simp
  | cons x xs ih =>
    by_cases hx : p x
    · simp [hx, ih, List.filter_cons]
    · simp [hx, ih, List.filter_cons, Nat.add_comm, Nat.add_assoc, Nat.add_left_comm]

theorem filterCount_eq (p : Rec → Bool) (l : List Rec) :
    filterCount p l = (l.filter p, (l.filter (fun r => !p r)).length) := by
  simpa using filterCount_go p l [] 0

/-! ## Backup documents (`src/storage/backup.js`) -/

/-- The value of the `version` field produced by `createBackupObject`. -/
def appVersion : String := "1.0.0"

/-- A (possibly malformed) backup/snapshot document.  A collection field is
`none` when it is not an array; a scalar field is `none` when absent. -/
structure BackupDoc where
  version : Option String
  schemaVersion : Option Nat
  createdAt : Option Nat
  workers : Option (List Rec)
  projects : Option (List Rec)
  entries : Option (List Rec)
deriving Repr, DecidableEq

/-- JS truthiness of a string field: present and non-empty (an ISO date
string is always non-empty, so for `createdAt` presence suffices). -/
def strTruthy : Option String → Bool
  | none => false
  | some s => s != ""

def errVersion : String := "Missing version"
def errSchemaVersion : String := "Missing schemaVersion"
def errCreatedAt : String := "Missing createdAt"
def errWorkers : String := "Invalid workers array"
def errProjects : String := "Invalid projects array"
def errEntries : String := "Invalid entries array"

/-- `validateBackup(backup)`: the accumulated error list; the document is
valid when it is empty. -/
def validateBackup (b : BackupDoc) : List String :=
  (if strTruthy b.version then [] else [errVersion]) ++
  (if numTruthy b.schemaVersion then [] else [errSchemaVersion]) ++
  (if b.createdAt.isSome then [] else [errCreatedAt]) ++
  (if b.workers.isSome then [] else [errWorkers]) ++
  (if b.projects.isSome then [] else [errProjects]) ++
  (if b.entries.isSome then [] else [errEntries])

/-- `createBackupObject(data)` restricted to the fields the claims are about
(the `meta` block is carried along by every tier and plays no role in
validation, merge or restore). -/
def createBackupObject (now : Nat) (d : Store) : BackupDoc :=
  { version := some appVersion
    schemaVersion := some DB_VERSION
    createdAt := some now
    workers := some d.workers
    projects := some d.projects
    entries := some d.workEntries }

/-! ## LWW merge (`analyzeImport` / `importBackup`) -/

/-- The timestamp handed to `new Date(r.updatedAt || r.createdAt)`:
`updatedAt` with fallback to `createdAt`; `none` models the `Invalid Date`
produced when both are absent. -/
def effTime (r : Rec) : Option Nat :=
  match r.updatedAt with
  | some t => some t
  | none => r.createdAt

/-- JS `>` on two `Date`s: numeric comparison, false whenever either side is
an `Invalid Date` (`NaN`). -/
def dateGt : Option Nat → Option Nat → Bool
  | some a, some b => decide (a > b)
  | some _, none => false
  | none, _ => false

/-- Per-collection counters of analysis and import summaries. -/
structure Counts where
  added : Nat
  updated : Nat
  skipped : Nat
deriving Repr, DecidableEq

/-- A whole summary: per-collection counters plus the global
`conflictsResolved` counter. -/
structure Summary where
  workers : Counts
  projects : Counts
  entries : Counts
  conflictsResolved : Nat
deriving Repr, DecidableEq

/-- The `forEach` body of `analyzeImport` for one incoming record: look the
id up in the (fixed) live collection and classify. The second component of
the accumulator is `conflictsResolved`. -/
def analyzeStep (live : List Rec) (acc : Counts × Nat) (r : Rec) : Counts × Nat :=
  match live.find? (fun w => w.id == r.id) with
  | none => ({ acc.1 with added := acc.1.added + 1 }, acc.2)
  | some ex =>
    if dateGt (effTime r) (effTime ex) then
      ({ acc.1 with updated := acc.1.updated + 1 }, acc.2 + 1)
    else
      ({ acc.1 with skipped := acc.1.skipped + 1 }, acc.2)

/-- One collection of `analyzeImport`: fold the step over the incoming
records. -/
def analyzeCol (live incoming : List Rec) (acc : Counts × Nat) : Counts × Nat :=
  incoming.foldl (analyzeStep live) acc

/-- Zero counters. -/
def zeroCounts : Counts := { added := 0, updated := 0, skipped := 0 }

/-- `analyzeImport(backup)`: dry-run classification of all three collections
against the live store, threading `conflictsResolved` through them. -/
def analyzeImport (s : Store) (b : BackupDoc) : Summary :=
  let aw := analyzeCol s.workers (b.workers.getD []) (zeroCounts, 0)
  let ap := analyzeCol s.projects (b.projects.getD []) (zeroCounts, aw.2)
  let ae := analyzeCol s.workEntries (b.entries.getD []) (zeroCounts, ap.2)
  { workers := aw.1, projects := ap.1, entries := ae.1, conflictsResolved := ae.2 }

/-- JS `Array.findIndex` (with `-1` rendered as `none`). -/
def findIndex (p : Rec → Bool) : List Rec → Option Nat
  | [] => none
  | x :: xs => if p x then some 0 else (findIndex p xs).map (· + 1)

/-- The `forEach` body of the soft-merge loop of `importBackup` for one
incoming record: look the id up in the *evolving* merged list; append when
absent, replace in place when the incoming effective timestamp is strictly
newer, keep the live record otherwise. -/
def mergeStep (acc : List Rec × Counts × Nat) (r : Rec) : List Rec × Counts × Nat :=
  let merged := acc.1
  let c := acc.2.1
  let conf := acc.2.2
  match findIndex (fun w => w.id == r.id) merged with
  | none => (merged ++ [r], { c with added := c.added + 1 }, conf)
  | some i =>
    match merged.get? i with
    | none => (merged, c, conf)
    | some ex =>
      if dateGt (effTime r) (effTime ex) then
        (merged.set i r, { c with updated := c.updated + 1 }, conf + 1)
      else
        (merged, { c with skipped := c.skipped + 1 }, conf)

/-- One collection of the soft merge, starting from the live records. -/
def mergeCol (live incoming : List Rec) (conf : Nat) : List Rec × Counts × Nat :=
  incoming.foldl mergeStep (live, zeroCounts, conf)

/-- `importBackup(backup, hardRestore)`: validates, then either replaces the
three collections wholesale (hard restore) or performs the LWW merge, and in
both cases persists the result through `saveAllData`.  The function returns
the (possibly unchanged) store next to the thrown error or the summary; a
validation failure happens before any read or write of the store. -/
def importBackup (now : Nat) (b : BackupDoc) (hardRestore : Bool) (s : Store) :
    Store × Except (List String) Summary :=
  let validation := validateBackup b
  if validation.isEmpty then
    if hardRestore then
      (saveAllData now
        { workers := b.workers.getD []
          projects := b.projects.getD []
          workEntries := b.entries.getD [] },
       .ok { workers := { zeroCounts with added := (b.workers.getD []).length }
             projects := { zeroCounts with added := (b.projects.getD []).length }
             entries := { zeroCounts with added := (b.entries.getD []).length }
             conflictsResolved := 0 })
    else
      let mw := mergeCol s.workers (b.workers.getD []) 0
      let mp := mergeCol s.projects (b.projects.getD []) mw.2.2
      let me := mergeCol s.workEntries (b.entries.getD []) mp.2.2
      (saveAllData now { workers := mw.1, projects := mp.1, workEntries := me.1 },
       .ok { workers := mw.2.1, projects := mp.2.1, entries := me.2.1
             conflictsResolved := me.2.2 })
  else
    (s, .error validation)

/-! ## Migration (`src/unnamed/part_009`) -/

/-- The legacy `localStorage` keys the migration reads: `mst:workers`,
`mst:projects`, `mst:workEntries` (each `none` when the key is absent; a
present key holds a JSON array, non-empty as a string and hence truthy), and
the `mst:migrated` completion flag. -/
structure LegacyStore where
  workers : Option (List Rec)
  projects : Option (List Rec)
  entries : Option (List Rec)
  migrated : Bool
deriving Repr, DecidableEq

/-- The whole persistent world seen by the migration module. -/
structure World where
  idb : Store
  legacy : LegacyStore
deriving Repr, DecidableEq

/-- `needsMigration()`: `!!(getItem(mst:workers) || getItem(mst:projects) ||
getItem(mst:workEntries))` — true exactly when at least one legacy key is
present (its JSON string is non-empty, hence truthy). -/
def needsMigration (l : LegacyStore) : Bool :=
  l.workers.isSome || l.projects.isSome || l.entries.isSome

/-- Per-collection migration counters. -/
structure MigCounts where
  migrated : Nat
  skipped : Nat
deriving Repr, DecidableEq

/-- Migration report. -/
structure MigReport where
  workers : MigCounts
  projects : MigCounts
  workEntries : MigCounts
deriving Repr, DecidableEq

/-- The `filter` with counters used by `migrateFromLocalStorage`: keep the
legacy records whose id is not already present in the live collection. -/
def migFilter (existingIds : List Nat) (legacy : List Rec) : List Rec × MigCounts :=
  legacy.foldl
    (fun acc r =>
      if r.id ∈ existingIds then
        (acc.1, { acc.2 with skipped := acc.2.skipped + 1 })
      else
        (acc.1 ++ [r], { acc.2 with migrated := acc.2.migrated + 1 }))
    ([], { migrated := 0, skipped := 0 })

/-- `migrateFromLocalStorage()`: appends the legacy records with fresh ids to
the live collections, persists through `saveAllData`, and sets the
`mst:migrated` flag.  The legacy keys themselves are left in place (cleanup
is a separate, optional call). -/
def migrateFromLocalStorage (now : Nat) (w : World) : World × MigReport :=
  let ex := w.idb
  let fw := migFilter (ex.workers.map (fun r => r.id)) (w.legacy.workers.getD [])
  let fp := migFilter (ex.projects.map (fun r => r.id)) (w.legacy.projects.getD [])
  let fe := migFilter (ex.workEntries.map (fun r => r.id)) (w.legacy.entries.getD [])
  let migratedStore := saveAllData now
    { workers := ex.workers ++ fw.1
      projects := ex.projects ++ fp.1
      workEntries := ex.workEntries ++ fe.1 }
  ({ idb := migratedStore, legacy := { w.legacy with migrated := true } },
   { workers := fw.2, projects := fp.2, workEntries := fe.2 })

/-- `performMigrationIfNeeded()`: runs the migration only when the
`mst:migrated` flag is absent and legacy data exists; otherwise it returns
`null` and touches nothing. -/
def performMigrationIfNeeded (now : Nat) (w : World) : World × Option MigReport :=
  if !w.legacy.migrated && needsMigration w.legacy then
    let res := migrateFromLocalStorage now w
    (res.1, some res.2)
  else
    (w, none)

/-! ## Rotating localStorage slots (`saveToLocalStorageSlot`) -/

/-- `BACKUP_SLOTS`. -/
def BACKUP_SLOTS : Nat := 5

/-- Per-slot entry of the `mst:autoBackup:index` structure. -/
structure SlotMeta where
  createdAt : Nat
  size : Nat
deriving Repr, DecidableEq

/-- The localStorage state of the rotating-slot tier: the serialized document
stored under `mst:autoBackup:slot:i`, the index metadata per slot, and the
`currentSlot` pointer of the index (0 when the index is absent). -/
structure SlotState where
  slots : Nat → Option String
  metas : Nat → Option SlotMeta
  currentSlot : Nat

/-- The pristine localStorage state: no slots, no index. -/
def initSlots : SlotState :=
  { slots := fun _ => none, metas := fun _ => none, currentSlot := 0 }

/-- `saveToLocalStorageSlot()`, parametrised by the serialized snapshot
string it would produce (`JSON.stringify(backup)`) and the clock: writes the
document to slot `currentSlot`, records created-at and byte size in the
index, and advances `currentSlot` to `(currentSlot + 1) % BACKUP_SLOTS`. -/
def saveToLocalStorageSlot (t : Nat) (doc : String) (st : SlotState) : SlotState :=
  let c := st.currentSlot
  { slots := fun j => if j = c then some doc else st.slots j
    metas := fun j => if j = c then some { createdAt := t, size := doc.length } else st.metas j
    currentSlot := (c + 1) % BACKUP_SLOTS }

/-- A sequence of slot writes (time, serialized document), oldest first. -/
def runSlotWrites (ws : List (Nat × String)) (st : SlotState) : SlotState :=
  ws.foldl (fun s w => saveToLocalStorageSlot w.1 w.2 s) st

/-! ## Auto-backup fan-out (`triggerAutoBackup`) -/

/-- The documents written by one `triggerAutoBackup()` fan-out, `none` for a
disabled tier. -/
structure TierDocs where
  slotDoc : BackupDoc
  opfsDoc : Option BackupDoc
  fsDoc : Option BackupDoc
deriving Repr, DecidableEq

/-- `triggerAutoBackup()`: the localStorage-slot tier, then (when available)
the OPFS tier, then (when a file handle is enabled) the File System Access
tier, awaited in sequence.  Each tier calls `loadAllData()` and
`createBackupObject()` itself, so the `k`-th load observes the store state
`storeAt k` at the clock value `timeAt k`; the function also returns how many
times a snapshot document was assembled. -/
def triggerAutoBackup (storeAt : Nat → Store) (timeAt : Nat → Nat)
    (opfsAvailable fsEnabled : Bool) : TierDocs × Nat :=
  let slotDoc := createBackupObject (timeAt 0) (storeAt 0)
  let n1 := 1
  let opfsDoc := if opfsAvailable then some (createBackupObject (timeAt n1) (storeAt n1)) else none
  let n2 := if opfsAvailable then n1 + 1 else n1
  let fsDoc := if fsEnabled then some (createBackupObject (timeAt n2) (storeAt n2)) else none
  let n3 := if fsEnabled then n2 + 1 else n2
  ({ slotDoc := slotDoc, opfsDoc := opfsDoc, fsDoc := fsDoc }, n3)

/-! ## Shared lemmas about the timestamp backfill -/

theorem backfillWorker_stamped (now : Nat) {w : Rec}
    (hu : w.updatedAt.isSome) (hc : w.createdAt.isSome) :
    backfillWorker now w = w := by
  cases w with
  | mk i u c t d da p =>
    cases u with
    | none => simp at hu
    | some a =>
      cases c with
      | none => simp at hc
      | some b => rfl

theorem backfillProject_stamped (now : Nat) {p : Rec}
    (hu : p.updatedAt.isSome) (hc : p.createdAt.isSome) :
    backfillProject now p = p := by
  cases p with
  | mk i u c t d da pl =>
    cases u with
    | none => simp at hu
    | some a =>
      cases c with
      | none => simp at hc
      | some b => rfl

theorem backfillEntry_stamped (now : Nat) {e : Rec}
    (hu : e.updatedAt.isSome) (hc : e.createdAt.isSome) :
    backfillEntry now e = e := by
  cases e with
  | mk i u c t d da p =>
    cases u with
    | none => simp at hu
    | some a =>
      cases c with
      | none => simp at hc
      | some b => rfl

theorem backfillWorker_isSome (now : Nat) (w : Rec) :
    (backfillWorker now w).updatedAt.isSome ∧ (backfillWorker now w).createdAt.isSome := by
  simp [backfillWorker]

theorem backfillProject_isSome (now : Nat) (p : Rec) :
    (backfillProject now p).updatedAt.isSome ∧ (backfillProject now p).createdAt.isSome := by
  simp [backfillProject]

theorem backfillEntry_isSome (now : Nat) (e : Rec) :
    (backfillEntry now e).updatedAt.isSome ∧ (backfillEntry now e).createdAt.isSome := by
  simp [backfillEntry]

theorem backfillWorker_idem (n2 n1 : Nat) (w : Rec) :
    backfillWorker n2 (backfillWorker n1 w) = backfillWorker n1 w :=
  backfillWorker_stamped n2 (backfillWorker_isSome n1 w).1 (backfillWorker_isSome n1 w).2

theorem backfillProject_idem (n2 n1 : Nat) (p : Rec) :
    backfillProject n2 (backfillProject n1 p) = backfillProject n1 p :=
  backfillProject_stamped n2 (backfillProject_isSome n1 p).1 (backfillProject_isSome n1 p).2

theorem backfillEntry_idem (n2 n1 : Nat) (e : Rec) :
    backfillEntry n2 (backfillEntry n1 e) = backfillEntry n1 e :=
  backfillEntry_stamped n2 (backfillEntry_isSome n1 e).1 (backfillEntry_isSome n1 e).2

theorem saveWorkers_idem (n2 n1 : Nat) (l : List Rec) :
    saveWorkers n2 (saveWorkers n1 l) = saveWorkers n1 l := by
  induction l with
  | nil => rfl
  | cons x xs ih =>
    simp only [saveWorkers, List.map_cons] at ih ⊢
    rw [backfillWorker_idem, ih]

theorem saveProjects_idem (n2 n1 : Nat) (l : List Rec) :
    saveProjects n2 (saveProjects n1 l) = saveProjects n1 l := by
  induction l with
  | nil => rfl
  | cons x xs ih =>
    simp only [saveProjects, List.map_cons] at ih ⊢
    rw [backfillProject_idem, ih]

theorem saveWorkEntries_idem (n2 n1 : Nat) (l : List Rec) :
    saveWorkEntries n2 (saveWorkEntries n1 l) = saveWorkEntries n1 l := by
  induction l with
  | nil => rfl
  | cons x xs ih =>
    simp only [saveWorkEntries, List.map_cons] at ih ⊢
    rw [backfillEntry_idem, ih]

theorem saveAllData_idem (n2 n1 : Nat) (d : Store) :
    saveAllData n2 (saveAllData n1 d) = saveAllData n1 d := by
  simp [saveAllData, saveWorkers_idem, saveProjects_idem, saveWorkEntries_idem]

/-- Backfilling does not change the id. -/
theorem backfill_id (now : Nat) (r : Rec) :
    (backfillWorker now r).id = r.id ∧ (backfillProject now r).id = r.id ∧
      (backfillEntry now r).id = r.id := by
  simp [backfillWorker, backfillProject, backfillEntry]

/-! ## C4 — vacuum retention -/

/-- Claim C4: `runVacuum` removes a record from a collection iff it carries
the `deleted` marker and the (signed) time elapsed since its `deletedAt`
(epoch 0 when absent) strictly exceeds the 90-day retention window.  The
surviving records are exactly the non-vacuumed ones, persisted through the
timestamp backfill of `saveAllData`; a record without the marker always
survives; a record deleted exactly 89 days ago is retained and one deleted
exactly 91 days ago is purged. -/
theorem c4_vacuum_retention (now : Nat) (s : Store) (e : Rec)
    (he : e ∈ s.workEntries) :
    ((runVacuum now s).1.workEntries
        = ((s.workEntries.filter (fun x => !shouldVacuum now x)).map (backfillEntry now)))
    ∧ ((runVacuum now s).1.workers
        = ((s.workers.filter (fun x => !shouldVacuum now x)).map (backfillWorker now)))
    ∧ ((runVacuum now s).1.projects
        = ((s.projects.filter (fun x => !shouldVacuum now x)).map (backfillProject now)))
    ∧ (shouldVacuum now e = true ↔
        e.deleted = true ∧ (now : Int) - (e.deletedAt.getD 0 : Nat) > (retentionMs : Int))
    ∧ (e.deleted = false → backfillEntry now e ∈ (runVacuum now s).1.workEntries)
    ∧ (e.deleted = true → (now : Int) - (e.deletedAt.getD 0 : Nat) = 89 * dayMs →
        shouldVacuum now e = false)
    ∧ (e.deleted = true → (now : Int) - (e.deletedAt.getD 0 : Nat) = 91 * dayMs →
        shouldVacuum now e = true) := by
  have hrun : (runVacuum now s).1
      = saveAllData now
          { workers := s.workers.filter (fun x => !shouldVacuum now x)
            projects := s.projects.filter (fun x => !shouldVacuum now x)
            workEntries := s.workEntries.filter (fun x => !shouldVacuum now x) } := by
    simp [runVacuum, filterCount_eq]
  have hchar : shouldVacuum now e = true ↔
      e.deleted = true ∧ (now : Int) - (e.deletedAt.getD 0 : Nat) > (retentionMs : Int) := by
    unfold shouldVacuum
    cases hd : e.deleted with
    | false => simp
    | true =>
      cases hda : e.deletedAt with
      | none => simp
      | some t => simp
  refine ⟨?_, ?_, ?_, hchar, ?_, ?_, ?_⟩
  · rw [hrun]; rfl
  · rw [hrun]; rfl
  · rw [hrun]; rfl
  · intro hdel
    rw [hrun]
    show backfillEntry now e ∈ saveWorkEntries now _
    unfold saveWorkEntries
    refine List.mem_map_of_mem _ ?_
    refine List.mem_filter.mpr ⟨he, ?_⟩
    simp [shouldVacuum, hdel]
  · intro hdel hage
    have hnot : ¬ ((now : Int) - (e.deletedAt.getD 0 : Nat) > (retentionMs : Int)) := by
      rw [hage]
      simp only [retentionMs, VACUUM_RETENTION_DAYS, dayMs]
      norm_num
    cases hsv : shouldVacuum now e with
    | false => rfl
    | true => exact absurd ((hchar.mp hsv).2) hnot
  · intro hdel hage
    refine hchar.mpr ⟨hdel, ?_⟩
    rw [hage]
    simp only [retentionMs, VACUUM_RETENTION_DAYS, dayMs]
    norm_num

/-- A live (never deleted) entry used in concrete checks. -/
def liveEntry : Rec :=
  { id := 1, updatedAt := some 5, createdAt := some 3, timestamp := none
    deleted := false, deletedAt := none, payload := 7 }

/-- An entry soft-deleted 89 days before `vacNow`. -/
def del89Entry : Rec :=
  { id := 2, updatedAt := none, createdAt := none, timestamp := none
    deleted := true, deletedAt := some (11 * dayMs), payload := 0 }

/-- An entry soft-deleted 91 days before `vacNow`. -/
def del91Entry : Rec :=
  { id := 3, updatedAt := none, createdAt := none, timestamp := none
    deleted := true, deletedAt := some (9 * dayMs), payload := 0 }

/-- The clock value used in the vacuum witness. -/
def vacNow : Nat := 100 * dayMs

/-- A concrete store fed to `runVacuum` in the witness. -/
def vacStore : Store :=
  { workers := [], projects := [], workEntries := [liveEntry, del89Entry, del91Entry] }

/-- Witness for C4 at a concrete input: at `now = 100 * dayMs` the live
entry survives, the entry deleted 89 days ago is not vacuumed, and the entry
deleted 91 days ago is vacuumed. -/
theorem c4_witness :
    backfillEntry vacNow liveEntry ∈ (runVacuum vacNow vacStore).1.workEntries ∧
      shouldVacuum vacNow del89Entry = false ∧
      shouldVacuum vacNow del91Entry = true := by
  have h := c4_vacuum_retention vacNow vacStore liveEntry (by simp [vacStore])
  have h2 := c4_vacuum_retention vacNow vacStore del89Entry (by simp [vacStore])
  have h3 := c4_vacuum_retention vacNow vacStore del91Entry (by simp [vacStore])
  refine ⟨h.2.2.2.2.1 rfl, h2.2.2.2.2.2.1 rfl ?_, h3.2.2.2.2.2.2 rfl ?_⟩
  · show ((vacNow : Int) - ((del89Entry.deletedAt.getD 0 : Nat) : Int) = 89 * dayMs)
    simp only [vacNow, del89Entry, dayMs, Option.getD]
    norm_num
  · show ((vacNow : Int) - ((del91Entry.deletedAt.getD 0 : Nat) : Int) = 91 * dayMs)
    simp only [vacNow, del91Entry, dayMs, Option.getD]
    norm_num

/-! ## C8 — rejection of malformed documents -/

theorem validateBackup_empty_iff (b : BackupDoc) :
    validateBackup b = [] ↔
      (strTruthy b.version = true ∧ numTruthy b.schemaVersion = true ∧
       b.createdAt.isSome = true ∧ b.workers.isSome = true ∧
       b.projects.isSome = true ∧ b.entries.isSome = true) := by
  unfold validateBackup
  split_ifs with h1 h2 h3 h4 h5 h6 <;> simp_all

/-- Claim C8: `importBackup` rejects every document failing structural
validation (falsy `version` or `schemaVersion`, missing `createdAt`, or one
of the three collections not an array) with an error carrying the validation
messages, and the live store is returned unchanged — no branch that touches
the collections is reached. -/
theorem c8_import_rejects_invalid (now : Nat) (b : BackupDoc) (hard : Bool) (s : Store)
    (h : ¬ (strTruthy b.version = true ∧ numTruthy b.schemaVersion = true ∧
            b.createdAt.isSome = true ∧ b.workers.isSome = true ∧
            b.projects.isSome = true ∧ b.entries.isSome = true)) :
    (importBackup now b hard s).1 = s ∧
      (importBackup now b hard s).2 = Except.error (validateBackup b) ∧
      validateBackup b ≠ [] := by
  have hne : validateBackup b ≠ [] := fun he => h ((validateBackup_empty_iff b).mp he)
  have hemp : (validateBackup b).isEmpty = false := by
    cases hv : validateBackup b with
    | nil => exact absurd hv hne
    | cons a l => rfl
  refine ⟨?_, ?_, hne⟩ <;> simp [importBackup, hemp]

/-- The malformed document of the C8 witness: its `workers` field is not an
array, everything else is well-formed. -/
def c8Doc : BackupDoc :=
  { version := some appVersion, schemaVersion := some 1, createdAt := some 5
    workers := none, projects := some [], entries := some [] }

/-- A non-trivial live store for the C8 witness. -/
def c8Store : Store :=
  { workers := [{ id := 4, updatedAt := some 8, createdAt := some 2, timestamp := none
                  deleted := false, deletedAt := none, payload := 3 }]
    projects := [], workEntries := [] }

/-- Witness for C8: the malformed document is rejected and the store is
untouched, for both the soft and the hard path. -/
theorem c8_witness :
    (importBackup 7 c8Doc false c8Store).1 = c8Store ∧
      (importBackup 7 c8Doc true c8Store).1 = c8Store ∧
      (importBackup 7 c8Doc false c8Store).2 = Except.error (validateBackup c8Doc) := by
  have h1 := c8_import_rejects_invalid 7 c8Doc false c8Store (by decide)
  have h2 := c8_import_rejects_invalid 7 c8Doc true c8Store (by decide)
  exact ⟨h1.1, h2.1, h1.2.1⟩

/-! ## C6 — `needsMigration` ignores the completion flag -/

/-- A legacy state with legacy data present *and* the `mst:migrated` flag
set. -/
def c6Legacy : LegacyStore :=
  { workers := some [], projects := none, entries := none, migrated := true }

/-- Counterexample to C6: with the `mst:migrated` flag present,
`needsMigration()` still returns `true` whenever a legacy key exists — the
code never consults the flag, so the claimed "AND the persisted flag is
absent" conjunct is false. -/
theorem c6_counterexample :
    needsMigration c6Legacy = true ∧ c6Legacy.migrated = true :=
  ⟨rfl, rfl⟩

/-- Claim C6 amended: `needsMigration()` returns true iff raw legacy data
exists, regardless of the migration flag; the flag is consulted separately by
`performMigrationIfNeeded`, which runs the migration iff the flag is absent
and `needsMigration()` holds. -/
theorem c6_needs_migration_amended (now : Nat) (w : World) :
    (needsMigration w.legacy = true ↔
      (w.legacy.workers ≠ none ∨ w.legacy.projects ≠ none ∨ w.legacy.entries ≠ none)) ∧
    ((performMigrationIfNeeded now w).2.isSome
      = (!w.legacy.migrated && needsMigration w.legacy)) := by
  constructor
  · simp [needsMigration, Bool.or_eq_true, Option.isSome_iff_ne_none, or_assoc]
  · unfold performMigrationIfNeeded
    split <;> simp_all

/-! ## C10 — timestamp backfill on the write paths -/

/-- A work entry with a `timestamp` but no `createdAt`. -/
def c10Entry : Rec :=
  { id := 1, updatedAt := some 10, createdAt := none, timestamp := some 7
    deleted := false, deletedAt := none, payload := 0 }

/-- Counterexample to C10: `saveWorkEntries` backfills the missing
`createdAt` of an entry from the entry's own `timestamp` field (7), not from
the current time (99), so "backfills any record missing updatedAt or
createdAt with the current time" is false for the work-entry path. -/
theorem c10_counterexample :
    saveWorkEntries 99 [c10Entry]
      = [{ id := 1, updatedAt := some 10, createdAt := some 7, timestamp := some 7
           deleted := false, deletedAt := none, payload := 0 }] ∧
      (7 : Nat) ≠ 99 := by
  exact ⟨rfl, by decide⟩

/-- Claim C10 amended: every write path leaves each stored record with both
`createdAt` and `updatedAt` defined, and keeps already-present timestamps
unchanged; a missing `updatedAt` is always backfilled with the current time,
and a missing `createdAt` is backfilled with the current time on the worker
and project paths, while the work-entry path uses the entry's truthy
`timestamp` when available and the current time only otherwise. -/
theorem c10_save_paths_amended (now : Nat) (ws ps es : List Rec) :
    (∀ r ∈ saveWorkers now ws, r.updatedAt.isSome ∧ r.createdAt.isSome) ∧
    (∀ r ∈ saveProjects now ps, r.updatedAt.isSome ∧ r.createdAt.isSome) ∧
    (∀ r ∈ saveWorkEntries now es, r.updatedAt.isSome ∧ r.createdAt.isSome) ∧
    (∀ r : Rec, r.updatedAt.isSome → r.createdAt.isSome →
      backfillWorker now r = r ∧ backfillProject now r = r ∧ backfillEntry now r = r) ∧
    (∀ r : Rec, r.updatedAt = none →
      (backfillWorker now r).updatedAt = some now ∧
      (backfillProject now r).updatedAt = some now ∧
      (backfillEntry now r).updatedAt = some now) ∧
    (∀ r : Rec, r.createdAt = none →
      (backfillWorker now r).createdAt = some now ∧
      (backfillProject now r).createdAt = some now) ∧
    (∀ e : Rec, e.createdAt = none → e.timestamp = none →
      (backfillEntry now e).createdAt = some now) ∧
    (∀ e : Rec, ∀ t, e.createdAt = none → e.timestamp = some t → t ≠ 0 →
      (backfillEntry now e).createdAt = some t) := by
  refine ⟨?_, ?_, ?_, ?_, ?_, ?_, ?_, ?_⟩
  · intro r hr
    obtain ⟨x, hx, rfl⟩ := List.mem_map.mp hr
    exact backfillWorker_isSome now x
  · intro r hr
    obtain ⟨x, hx, rfl⟩ := List.mem_map.mp hr
    exact backfillProject_isSome now x
  · intro r hr
    obtain ⟨x, hx, rfl⟩ := List.mem_map.mp hr
    exact backfillEntry_isSome now x
  · intro r hu hc
    exact ⟨backfillWorker_stamped now hu hc, backfillProject_stamped now hu hc,
      backfillEntry_stamped now hu hc⟩
  · intro r hu
    simp [backfillWorker, backfillProject, backfillEntry, hu]
  · intro r hc
    simp [backfillWorker, backfillProject, hc]
  · intro e hc ht
    simp [backfillEntry, hc, ht]
  · intro e t hc ht h0
    simp [backfillEntry, hc, ht, h0]

/-- A record with no timestamps at all. -/
def c10Bare : Rec :=
  { id := 2, updatedAt := none, createdAt := none, timestamp := none
    deleted := false, deletedAt := none, payload := 0 }

/-- Witness for the amended C10 at concrete inputs. -/
theorem c10_witness :
    (backfillWorker 5 c10Bare).updatedAt = some 5 ∧
      (backfillEntry 5 c10Bare).createdAt = some 5 ∧
      (backfillEntry 5 c10Entry).createdAt = some 7 := by
  have h := c10_save_paths_amended 5 [] [] []
  exact ⟨(h.2.2.2.2.1 c10Bare rfl).1,
    h.2.2.2.2.2.2.1 c10Bare rfl rfl,
    h.2.2.2.2.2.2.2 c10Entry 7 rfl rfl (by decide)⟩

/-! ## C1 — LWW decision of the soft merge -/

/-- Claim C1: in the soft merge of `importBackup`, an incoming record whose
id has no match in the current merged collection is appended and counted as
added; an incoming record matching a live record replaces it iff its
effective timestamp (`updatedAt`, falling back to `createdAt`) is strictly
greater than the live record's (counted as updated, resolving a conflict),
and otherwise — including the equal-timestamp case — the live record is kept
and the incoming one is counted as skipped. -/
theorem c1_soft_merge_lww (merged : List Rec) (c : Counts) (conf : Nat) (r : Rec) :
    (findIndex (fun w => w.id == r.id) merged = none →
       mergeStep (merged, c, conf) r
         = (merged ++ [r], { c with added := c.added + 1 }, conf)) ∧
    (∀ i ex, findIndex (fun w => w.id == r.id) merged = some i →
       merged.get? i = some ex →
       ((∀ tr te, effTime r = some tr → effTime ex = some te →
          ((tr > te →
             mergeStep (merged, c, conf) r
               = (merged.set i r, { c with updated := c.updated + 1 }, conf + 1)) ∧
           (¬ tr > te →
             mergeStep (merged, c, conf) r
               = (merged, { c with skipped := c.skipped + 1 }, conf)))) ∧
        (effTime r = effTime ex →
          mergeStep (merged, c, conf) r
            = (merged, { c with skipped := c.skipped + 1 }, conf)) ∧
        (dateGt (effTime r) (effTime ex) = false →
          mergeStep (merged, c, conf) r
            = (merged, { c with skipped := c.skipped + 1 }, conf)))) := by
  constructor
  · intro h
    simp [mergeStep, h]
  · intro i ex hfind hget
    have hget2 : merged[i]? = some ex := by
      simpa [List.get?_eq_getElem?] using hget
    refine ⟨?_, ?_, ?_⟩
    · intro tr te htr hte
      constructor
      · intro hgt
        have hd : dateGt (effTime r) (effTime ex) = true := by
          rw [htr, hte]
          simpa [dateGt] using hgt
        simp [mergeStep, hfind, hget2, hd]
      · intro hle
        have hd : dateGt (effTime r) (effTime ex) = false := by
          rw [htr, hte]
          simpa [dateGt] using hle
        simp [mergeStep, hfind, hget2, hd]
    · intro heq
      have hd : dateGt (effTime r) (effTime ex) = false := by
        rw [heq]
        cases hx : effTime ex with
        | none => rfl
        | some t => simp [dateGt]
      simp [mergeStep, hfind, hget2, hd]
    · intro hd
      simp [mergeStep, hfind, hget2, hd]

/-- Live record of the C1 witness (effective timestamp 10). -/
def c1Live : Rec :=
  { id := 5, updatedAt := some 10, createdAt := some 1, timestamp := none
    deleted := false, deletedAt := none, payload := 1 }

/-- Incoming record of the C1 witness (same id, effective timestamp 20). -/
def c1Inc : Rec :=
  { id := 5, updatedAt := some 20, createdAt := some 2, timestamp := none
    deleted := false, deletedAt := none, payload := 2 }

/-- Incoming record of the C1 witness with a fresh id. -/
def c1Fresh : Rec :=
  { id := 6, updatedAt := some 4, createdAt := some 4, timestamp := none
    deleted := false, deletedAt := none, payload := 3 }

/-- Witness for C1: a strictly newer incoming record replaces the live one
(updated + conflict), an equal-timestamp incoming copy is skipped, and a
fresh id is appended. -/
theorem c1_witness :
    mergeStep ([c1Live], zeroCounts, 0) c1Inc
        = ([c1Inc], { zeroCounts with updated := 1 }, 1) ∧
      mergeStep ([c1Live], zeroCounts, 0) c1Live
        = ([c1Live], { zeroCounts with skipped := 1 }, 0) ∧
      mergeStep ([c1Live], zeroCounts, 0) c1Fresh
        = ([c1Live, c1Fresh], { zeroCounts with added := 1 }, 0) := by
  refine ⟨?_, ?_, ?_⟩
  · have h := (((c1_soft_merge_lww [c1Live] zeroCounts 0 c1Inc).2 0 c1Live
      (by decide) rfl).1 20 10 rfl rfl).1 (by decide)
    simpa using h
  · have h := ((c1_soft_merge_lww [c1Live] zeroCounts 0 c1Live).2 0 c1Live
      (by decide) rfl).2.1 rfl
    simpa using h
  · have h := (c1_soft_merge_lww [c1Live] zeroCounts 0 c1Fresh).1 (by decide)
    simpa using h

/-! ## C5 — idempotent migration -/

theorem migFilter_go (ids : List Nat) (l : List Rec) (acc : List Rec) (m k : Nat) :
    l.foldl
      (fun (acc : List Rec × MigCounts) r =>
        if r.id ∈ ids then
          (acc.1, { acc.2 with skipped := acc.2.skipped + 1 })
        else
          (acc.1 ++ [r], { acc.2 with migrated := acc.2.migrated + 1 }))
      (acc, { migrated := m, skipped := k })
      = (acc ++ l.filter (fun r => !decide (r.id ∈ ids)),
         { migrated := m + (l.filter (fun r => !decide (r.id ∈ ids))).length
           skipped := k + (l.filter (fun r => decide (r.id ∈ ids))).length }) := by
  induction l generalizing acc m k with
  | nil => simp
  | cons x xs ih =>
    by_cases hx : x.id ∈ ids
    · simp [hx, ih, List.filter_cons, Nat.add_comm, Nat.add_assoc, Nat.add_left_comm]
    · simp [hx, ih, List.filter_cons, Nat.add_comm, Nat.add_assoc, Nat.add_left_comm]

theorem migFilter_eq (ids : List Nat) (l : List Rec) :
    migFilter ids l
      = (l.filter (fun r => !decide (r.id ∈ ids)),
         { migrated := (l.filter (fun r => !decide (r.id ∈ ids))).length
           skipped := (l.filter (fun r => decide (r.id ∈ ids))).length }) := by
  simpa using migFilter_go ids l [] 0 0

theorem migFilter_all_present (ids : List Nat) (l : List Rec)
    (h : ∀ r ∈ l, r.id ∈ ids) :
    migFilter ids l = ([], { migrated := 0, skipped := l.length }) := by
  rw [migFilter_eq]
  have hnil : l.filter (fun r => !decide (r.id ∈ ids)) = [] := by
    rw [List.filter_eq_nil_iff]
    intro a ha
    simp [h a ha]
  have hall : l.filter (fun r => decide (r.id ∈ ids)) = l := by
    rw [List.filter_eq_self]
    intro a ha
    simp [h a ha]
  rw [hnil, hall]
  rfl

theorem saveWorkers_ids (now : Nat) (l : List Rec) :
    (saveWorkers now l).map (fun r => r.id) = l.map (fun r => r.id) := by
  induction l with
  | nil => rfl
  | cons x xs ih =>
    show (backfillWorker now x).id :: (saveWorkers now xs).map (fun r => r.id)
        = x.id :: xs.map (fun r => r.id)
    rw [ih]
    rfl

theorem saveProjects_ids (now : Nat) (l : List Rec) :
    (saveProjects now l).map (fun r => r.id) = l.map (fun r => r.id) := by
  induction l with
  | nil => rfl
  | cons x xs ih =>
    show (backfillProject now x).id :: (saveProjects now xs).map (fun r => r.id)
        = x.id :: xs.map (fun r => r.id)
    rw [ih]
    rfl

theorem saveWorkEntries_ids (now : Nat) (l : List Rec) :
    (saveWorkEntries now l).map (fun r => r.id) = l.map (fun r => r.id) := by
  induction l with
  | nil => rfl
  | cons x xs ih =>
    show (backfillEntry now x).id :: (saveWorkEntries now xs).map (fun r => r.id)
        = x.id :: xs.map (fun r => r.id)
    rw [ih]
    rfl

/-- Every record of a legacy list ends up, id-wise, in the collection written
by the first migration run: either its id was already live, or the record
itself was appended. -/
theorem legacy_ids_covered (ids : List Nat) (l : List Rec) (r : Rec) (hr : r ∈ l) :
    r.id ∈ ids ∨ r ∈ (migFilter ids l).1 := by
  by_cases h : r.id ∈ ids
  · exact Or.inl h
  · refine Or.inr ?_
    rw [migFilter_eq]
    exact List.mem_filter.mpr ⟨hr, by simp [h]⟩

/-- After one `migrateFromLocalStorage` run, every legacy record id is
present in the corresponding written collection. -/
theorem migrate_covers (n1 : Nat) (w : World) :
    (∀ r ∈ (migrateFromLocalStorage n1 w).1.legacy.workers.getD [],
        r.id ∈ ((migrateFromLocalStorage n1 w).1.idb.workers).map (fun x => x.id)) ∧
    (∀ r ∈ (migrateFromLocalStorage n1 w).1.legacy.projects.getD [],
        r.id ∈ ((migrateFromLocalStorage n1 w).1.idb.projects).map (fun x => x.id)) ∧
    (∀ r ∈ (migrateFromLocalStorage n1 w).1.legacy.entries.getD [],
        r.id ∈ ((migrateFromLocalStorage n1 w).1.idb.workEntries).map (fun x => x.id)) := by
  refine ⟨?_, ?_, ?_⟩ <;> intro r hr
  · show r.id ∈ (saveWorkers n1
      (w.idb.workers
        ++ (migFilter (w.idb.workers.map (fun x => x.id)) (w.legacy.workers.getD [])).1)).map
        (fun x => x.id)
    rw [saveWorkers_ids, List.map_append]
    rcases legacy_ids_covered (w.idb.workers.map (fun x => x.id))
        (w.legacy.workers.getD []) r hr with h | h
    · exact List.mem_append.mpr (Or.inl h)
    · exact List.mem_append.mpr (Or.inr (List.mem_map_of_mem _ h))
  · show r.id ∈ (saveProjects n1
      (w.idb.projects
        ++ (migFilter (w.idb.projects.map (fun x => x.id)) (w.legacy.projects.getD [])).1)).map
        (fun x => x.id)
    rw [saveProjects_ids, List.map_append]
    rcases legacy_ids_covered (w.idb.projects.map (fun x => x.id))
        (w.legacy.projects.getD []) r hr with h | h
    · exact List.mem_append.mpr (Or.inl h)
    · exact List.mem_append.mpr (Or.inr (List.mem_map_of_mem _ h))
  · show r.id ∈ (saveWorkEntries n1
      (w.idb.workEntries
        ++ (migFilter (w.idb.workEntries.map (fun x => x.id)) (w.legacy.entries.getD [])).1)).map
        (fun x => x.id)
    rw [saveWorkEntries_ids, List.map_append]
    rcases legacy_ids_covered (w.idb.workEntries.map (fun x => x.id))
        (w.legacy.entries.getD []) r hr with h | h
    · exact List.mem_append.mpr (Or.inl h)
    · exact List.mem_append.mpr (Or.inr (List.mem_map_of_mem _ h))

/-- A run of `migrateFromLocalStorage` on a world whose live collections
already contain every legacy id appends nothing: it reports zero migrated
records everywhere and merely re-saves the collections. -/
theorem migrate_when_covered (n2 : Nat) (w1 : World)
    (hW : ∀ r ∈ w1.legacy.workers.getD [],
        r.id ∈ w1.idb.workers.map (fun x => x.id))
    (hP : ∀ r ∈ w1.legacy.projects.getD [],
        r.id ∈ w1.idb.projects.map (fun x => x.id))
    (hE : ∀ r ∈ w1.legacy.entries.getD [],
        r.id ∈ w1.idb.workEntries.map (fun x => x.id)) :
    (migrateFromLocalStorage n2 w1).1.idb = saveAllData n2 w1.idb ∧
      (migrateFromLocalStorage n2 w1).2.workers.migrated = 0 ∧
      (migrateFromLocalStorage n2 w1).2.projects.migrated = 0 ∧
      (migrateFromLocalStorage n2 w1).2.workEntries.migrated = 0 := by
  have h1 : (migrateFromLocalStorage n2 w1).1.idb
      = saveAllData n2
          { workers := w1.idb.workers
              ++ (migFilter (w1.idb.workers.map (fun x => x.id)) (w1.legacy.workers.getD [])).1
            projects := w1.idb.projects
              ++ (migFilter (w1.idb.projects.map (fun x => x.id)) (w1.legacy.projects.getD [])).1
            workEntries := w1.idb.workEntries
              ++ (migFilter (w1.idb.workEntries.map (fun x => x.id)) (w1.legacy.entries.getD [])).1 } := rfl
  have h2w : (migrateFromLocalStorage n2 w1).2.workers
      = (migFilter (w1.idb.workers.map (fun x => x.id)) (w1.legacy.workers.getD [])).2 := rfl
  have h2p : (migrateFromLocalStorage n2 w1).2.projects
      = (migFilter (w1.idb.projects.map (fun x => x.id)) (w1.legacy.projects.getD [])).2 := rfl
  have h2e : (migrateFromLocalStorage n2 w1).2.workEntries
      = (migFilter (w1.idb.workEntries.map (fun x => x.id)) (w1.legacy.entries.getD [])).2 := rfl
  rw [migFilter_all_present _ _ hW, migFilter_all_present _ _ hP,
    migFilter_all_present _ _ hE] at h1
  rw [migFilter_all_present _ _ hW] at h2w
  rw [migFilter_all_present _ _ hP] at h2p
  rw [migFilter_all_present _ _ hE] at h2e
  refine ⟨?_, ?_, ?_, ?_⟩
  · rw [h1]
    simp only [List.append_nil]
  · rw [h2w]
  · rw [h2p]
  · rw [h2e]

/-- Claim C5: migration is idempotent.  Running `migrateFromLocalStorage`
twice leaves the IndexedDB collections exactly as after one run and the
second run reports zero migrated records in every collection (already-present
ids are skipped, never duplicated); `performMigrationIfNeeded` run twice
yields exactly the world of one run; and with no legacy data present
`performMigrationIfNeeded` changes nothing and returns no report. -/
theorem c5_migration_idempotent (n1 n2 : Nat) (w : World) :
    ((migrateFromLocalStorage n2 (migrateFromLocalStorage n1 w).1).1.idb
        = (migrateFromLocalStorage n1 w).1.idb) ∧
    ((migrateFromLocalStorage n2 (migrateFromLocalStorage n1 w).1).2.workers.migrated = 0 ∧
     (migrateFromLocalStorage n2 (migrateFromLocalStorage n1 w).1).2.projects.migrated = 0 ∧
     (migrateFromLocalStorage n2 (migrateFromLocalStorage n1 w).1).2.workEntries.migrated = 0) ∧
    ((performMigrationIfNeeded n2 (performMigrationIfNeeded n1 w).1).1
        = (performMigrationIfNeeded n1 w).1) ∧
    (needsMigration w.legacy = false → performMigrationIfNeeded n1 w = (w, none)) := by
  obtain ⟨hW, hP, hE⟩ := migrate_covers n1 w
  obtain ⟨hidb, hzw, hzp, hze⟩ := migrate_when_covered n2 _ hW hP hE
  have hsave : (migrateFromLocalStorage n1 w).1.idb
      = saveAllData n1
          { workers := w.idb.workers
              ++ (migFilter (w.idb.workers.map (fun x => x.id)) (w.legacy.workers.getD [])).1
            projects := w.idb.projects
              ++ (migFilter (w.idb.projects.map (fun x => x.id)) (w.legacy.projects.getD [])).1
            workEntries := w.idb.workEntries
              ++ (migFilter (w.idb.workEntries.map (fun x => x.id)) (w.legacy.entries.getD [])).1 } := rfl
  refine ⟨?_, ⟨hzw, hzp, hze⟩, ?_, ?_⟩
  · rw [hidb, hsave, saveAllData_idem]
  · unfold performMigrationIfNeeded
    cases hm : w.legacy.migrated with
    | true => simp [hm]
    | false =>
      cases hn : needsMigration w.legacy with
      | false => simp [hm, hn]
      | true =>
        have hflag : (migrateFromLocalStorage n1 w).1.legacy.migrated = true := rfl
        simp [hm, hn, hflag]
  · intro hn
    unfold performMigrationIfNeeded
    simp [hn]

/-- A world with one live worker and no legacy data, for the C5 witness. -/
def c5World : World :=
  { idb :=
      { workers := [{ id := 3, updatedAt := some 6, createdAt := some 2, timestamp := none
                      deleted := false, deletedAt := none, payload := 9 }]
        projects := [], workEntries := [] }
    legacy := { workers := none, projects := none, entries := none, migrated := false } }

/-- Witness for C5 at a concrete world: with no legacy data the adapter is a
strict no-op, and a second invocation leaves the world of the first. -/
theorem c5_witness :
    performMigrationIfNeeded 3 c5World = (c5World, none) ∧
      (performMigrationIfNeeded 4 (performMigrationIfNeeded 3 c5World).1).1
        = (performMigrationIfNeeded 3 c5World).1 := by
  have h := c5_migration_idempotent 3 4 c5World
  exact ⟨h.2.2.2 rfl, h.2.2.1⟩

/-! ## C9 — hard-restore round trip -/

/-- A store holding a worker with no `updatedAt`. -/
def c9Bad : Store :=
  { workers := [{ id := 1, updatedAt := none, createdAt := some 5, timestamp := none
                  deleted := false, deletedAt := none, payload := 0 }]
    projects := [], workEntries := [] }

/-- Counterexample to C9: hard-restoring a snapshot taken from a store whose
worker lacks `updatedAt` does not reproduce the store — `saveAllData`
backfills the missing timestamp with the restore-time clock, so the claim
does not hold for *every* live-store state. -/
theorem c9_counterexample :
    (importBackup 99 (createBackupObject 50 c9Bad) true c9Bad).1 ≠ c9Bad := by
  decide

theorem saveWorkers_stamped (now : Nat) (l : List Rec)
    (h : ∀ r ∈ l, r.updatedAt.isSome ∧ r.createdAt.isSome) :
    saveWorkers now l = l := by
  induction l with
  | nil => rfl
  | cons x xs ih =>
    have hx := h x (by simp)
    show backfillWorker now x :: saveWorkers now xs = x :: xs
    rw [backfillWorker_stamped now hx.1 hx.2,
      ih (fun r hr => h r (List.mem_cons_of_mem _ hr))]

theorem saveProjects_stamped (now : Nat) (l : List Rec)
    (h : ∀ r ∈ l, r.updatedAt.isSome ∧ r.createdAt.isSome) :
    saveProjects now l = l := by
  induction l with
  | nil => rfl
  | cons x xs ih =>
    have hx := h x (by simp)
    show backfillProject now x :: saveProjects now xs = x :: xs
    rw [backfillProject_stamped now hx.1 hx.2,
      ih (fun r hr => h r (List.mem_cons_of_mem _ hr))]

theorem saveWorkEntries_stamped (now : Nat) (l : List Rec)
    (h : ∀ r ∈ l, r.updatedAt.isSome ∧ r.createdAt.isSome) :
    saveWorkEntries now l = l := by
  induction l with
  | nil => rfl
  | cons x xs ih =>
    have hx := h x (by simp)
    show backfillEntry now x :: saveWorkEntries now xs = x :: xs
    rw [backfillEntry_stamped now hx.1 hx.2,
      ih (fun r hr => h r (List.mem_cons_of_mem _ hr))]

/-- Claim C9 amended: for every live store in which each record of each
collection carries both `createdAt` and `updatedAt` (the invariant every
write path establishes), taking a snapshot and immediately hard-restoring it
reproduces all three collections exactly. -/
theorem c9_roundtrip_amended (tSnap now : Nat) (s : Store)
    (hw : ∀ r ∈ s.workers, r.updatedAt.isSome ∧ r.createdAt.isSome)
    (hp : ∀ r ∈ s.projects, r.updatedAt.isSome ∧ r.createdAt.isSome)
    (he : ∀ r ∈ s.workEntries, r.updatedAt.isSome ∧ r.createdAt.isSome) :
    (importBackup now (createBackupObject tSnap s) true s).1 = s := by
  have hres : (importBackup now (createBackupObject tSnap s) true s).1
      = saveAllData now s := rfl
  rw [hres]
  show ({ workers := saveWorkers now s.workers
          projects := saveProjects now s.projects
          workEntries := saveWorkEntries now s.workEntries } : Store) = s
  rw [saveWorkers_stamped now s.workers hw, saveProjects_stamped now s.projects hp,
    saveWorkEntries_stamped now s.workEntries he]

/-- A fully timestamped store for the C9 witness. -/
def c9Good : Store :=
  { workers := [{ id := 1, updatedAt := some 4, createdAt := some 2, timestamp := none
                  deleted := false, deletedAt := none, payload := 8 }]
    projects := [{ id := 2, updatedAt := some 9, createdAt := some 9, timestamp := none
                   deleted := false, deletedAt := none, payload := 1 }]
    workEntries := [] }

/-- Witness for the amended C9: snapshot-then-hard-restore is the identity on
a concrete fully timestamped store. -/
theorem c9_witness :
    (importBackup 99 (createBackupObject 50 c9Good) true c9Good).1 = c9Good :=
  c9_roundtrip_amended 50 99 c9Good (by decide) (by decide) (by decide)

/-! ## C7 — rotating-slot ring buffer -/

theorem runSlotWrites_append (ws : List (Nat × String)) (w : Nat × String) (st : SlotState) :
    runSlotWrites (ws ++ [w]) st = saveToLocalStorageSlot w.1 w.2 (runSlotWrites ws st) := by
  simp [runSlotWrites, List.foldl_append]

theorem runSlotWrites_currentSlot (ws : List (Nat × String)) (st : SlotState)
    (hc : st.currentSlot < 5) :
    (runSlotWrites ws st).currentSlot = (st.currentSlot + ws.length) % 5 := by
  induction ws generalizing st with
  | nil =>
    show st.currentSlot = (st.currentSlot + 0) % 5
    rw [Nat.add_zero, Nat.mod_eq_of_lt hc]
  | cons w ws ih =>
    show (runSlotWrites ws (saveToLocalStorageSlot w.1 w.2 st)).currentSlot = _
    rw [ih (saveToLocalStorageSlot w.1 w.2 st) ?_]
    · show ((st.currentSlot + 1) % BACKUP_SLOTS + ws.length) % 5
          = (st.currentSlot + (ws.length + 1)) % 5
      simp only [BACKUP_SLOTS]
      omega
    · show (st.currentSlot + 1) % BACKUP_SLOTS < 5
      simp only [BACKUP_SLOTS]
      omega

theorem get_append_last (l : List (Nat × String)) (a : Nat × String)
    (h : l.length < (l ++ [a]).length) :
    (l ++ [a]).get ⟨l.length, h⟩ = a := by
  induction l with
  | nil => rfl
  | cons x xs ih => exact ih (by simp)

theorem get_append_left_pair (l m : List (Nat × String)) (i : Nat)
    (hi : i < l.length) (h : i < (l ++ m).length) :
    (l ++ m).get ⟨i, h⟩ = l.get ⟨i, hi⟩ := by
  induction l generalizing i with
  | nil => simp at hi
  | cons x xs ih =>
    cases i with
    | zero => rfl
    | succ j => exact ih j (by simpa using hi) (by simpa using h)

/-- If `i` is the last index of its residue class in the write sequence, slot
`i % 5` holds the `i`-th document and the index records its time and size. -/
theorem runSlotWrites_last_of_residue (ws : List (Nat × String)) (i : Nat) :
    ∀ hi : i < ws.length,
      (∀ i2, i < i2 → i2 < ws.length → i2 % 5 ≠ i % 5) →
      (runSlotWrites ws initSlots).slots (i % 5) = some ((ws.get ⟨i, hi⟩).2) ∧
      (runSlotWrites ws initSlots).metas (i % 5)
        = some { createdAt := (ws.get ⟨i, hi⟩).1, size := ((ws.get ⟨i, hi⟩).2).length } := by
  induction ws using List.reverseRecOn with
  | nil => intro hi; simp at hi
  | append_singleton l a ih =>
    intro hi hl
    have hlen : (l ++ [a]).length = l.length + 1 := by simp
    have hcur : (runSlotWrites l initSlots).currentSlot = l.length % 5 := by
      have h0 : (initSlots : SlotState).currentSlot < 5 := by
        simp [initSlots]
      simpa [initSlots] using runSlotWrites_currentSlot l initSlots h0
    rw [runSlotWrites_append]
    rcases Nat.lt_or_ge i l.length with hil | hil
    · have hne : (i % 5) ≠ (runSlotWrites l initSlots).currentSlot := by
        rw [hcur]
        exact fun h => hl l.length hil (by omega) h.symm
      have hrec := ih hil (fun i2 h2 h3 => hl i2 h2 (by omega))
      have hget : (l ++ [a]).get ⟨i, hi⟩ = l.get ⟨i, hil⟩ :=
        get_append_left_pair l [a] i hil hi
      constructor
      · show (if i % 5 = (runSlotWrites l initSlots).currentSlot
            then some a.2 else (runSlotWrites l initSlots).slots (i % 5)) = _
        rw [if_neg hne, hget]
        exact hrec.1
      · show (if i % 5 = (runSlotWrites l initSlots).currentSlot
            then some { createdAt := a.1, size := a.2.length }
            else (runSlotWrites l initSlots).metas (i % 5)) = _
        rw [if_neg hne, hget]
        exact hrec.2
    · have hieq : i = l.length := by omega
      subst hieq
      have hget : (l ++ [a]).get ⟨l.length, hi⟩ = a := get_append_last l a hi
      constructor
      · show (if l.length % 5 = (runSlotWrites l initSlots).currentSlot
            then some a.2 else (runSlotWrites l initSlots).slots (l.length % 5)) = _
        rw [if_pos (by rw [hcur]), hget]
      · show (if l.length % 5 = (runSlotWrites l initSlots).currentSlot
            then some { createdAt := a.1, size := a.2.length }
            else (runSlotWrites l initSlots).metas (l.length % 5)) = _
        rw [if_pos (by rw [hcur]), hget]

/-- Slots outside `0..4` are never written. -/
theorem runSlotWrites_high_none (ws : List (Nat × String)) (j : Nat) (hj : 5 ≤ j) :
    (runSlotWrites ws initSlots).slots j = none ∧
      (runSlotWrites ws initSlots).metas j = none := by
  induction ws using List.reverseRecOn with
  | nil => exact ⟨rfl, rfl⟩
  | append_singleton l a ih =>
    have hcur : (runSlotWrites l initSlots).currentSlot = l.length % 5 := by
      have h0 : (initSlots : SlotState).currentSlot < 5 := by
        simp [initSlots]
      simpa [initSlots] using runSlotWrites_currentSlot l initSlots h0
    have hne : j ≠ (runSlotWrites l initSlots).currentSlot := by
      rw [hcur]
      omega
    rw [runSlotWrites_append]
    constructor
    · show (if j = (runSlotWrites l initSlots).currentSlot
          then some a.2 else (runSlotWrites l initSlots).slots j) = none
      rw [if_neg hne]
      exact ih.1
    · show (if j = (runSlotWrites l initSlots).currentSlot
          then some { createdAt := a.1, size := a.2.length }
          else (runSlotWrites l initSlots).metas j) = none
      rw [if_neg hne]
      exact ih.2

/-- Claim C7: after `N ≥ 5` successive slot writes starting from a pristine
localStorage, every slot `0..4` is occupied and carries index metadata, no
slot outside `0..4` is ever written, slot `i % 5` holds exactly the document
of write `i` (with its created-at and byte size in the index) for every `i`
in the window of the 5 most recent writes, and every slot number below 5 is
hit by exactly that window — so the 5 occupied slots contain precisely the 5
most recently written documents, each new write evicting the oldest. -/
theorem c7_ring_buffer (ws : List (Nat × String)) (hN : 5 ≤ ws.length) :
    (∀ j, j < 5 → ((runSlotWrites ws initSlots).slots j).isSome
        ∧ ((runSlotWrites ws initSlots).metas j).isSome) ∧
    (∀ j, 5 ≤ j → (runSlotWrites ws initSlots).slots j = none) ∧
    (∀ i, ∀ hi : i < ws.length, ws.length - 5 ≤ i →
      (runSlotWrites ws initSlots).slots (i % 5) = some ((ws.get ⟨i, hi⟩).2) ∧
      (runSlotWrites ws initSlots).metas (i % 5)
        = some { createdAt := (ws.get ⟨i, hi⟩).1, size := ((ws.get ⟨i, hi⟩).2).length }) ∧
    (∀ j, j < 5 → ∃ i, ∃ hi : i < ws.length, ws.length - 5 ≤ i ∧ i % 5 = j) := by
  have hwindow : ∀ i, i < ws.length → ws.length - 5 ≤ i →
      ∀ i2, i < i2 → i2 < ws.length → i2 % 5 ≠ i % 5 := by
    intro i h1 h2 i2 h3 h4
    omega
  have hfind : ∀ j, j < 5 → ∃ i, i < ws.length ∧ ws.length - 5 ≤ i ∧ i % 5 = j := by
    intro j hj
    refine ⟨ws.length - 5 + ((j + 5 - (ws.length - 5) % 5) % 5), ?_, ?_, ?_⟩ <;> omega
  refine ⟨?_, ?_, ?_, ?_⟩
  · intro j hj
    obtain ⟨i, hi, hwin, hres⟩ := hfind j hj
    have h := runSlotWrites_last_of_residue ws i hi (hwindow i hi hwin)
    rw [← hres]
    exact ⟨by rw [h.1]; rfl, by rw [h.2]; rfl⟩
  · intro j hj
    exact (runSlotWrites_high_none ws j hj).1
  · intro i hi hwin
    exact runSlotWrites_last_of_residue ws i hi (hwindow i hi hwin)
  · intro j hj
    obtain ⟨i, hi, hwin, hres⟩ := hfind j hj
    exact ⟨i, hi, hwin, hres⟩

def docA : String := "alpha"
def docB : String := "bravo"
def docC : String := "charlie"
def docD : String := "delta"
def docE : String := "echo"
def docF : String := "foxtrot"

/-- Six successive writes for the C7 witness. -/
def c7Writes : List (Nat × String) :=
  [(1, docA), (2, docB), (3, docC), (4, docD), (5, docE), (6, docF)]

/-- Witness for C7 on six concrete writes: slot 0 holds the sixth document
(the first was evicted), slot 1 still holds the second, and slot 7 was never
written. -/
theorem c7_witness :
    (runSlotWrites c7Writes initSlots).slots (5 % 5) = some docF ∧
      (runSlotWrites c7Writes initSlots).slots (1 % 5) = some docB ∧
      (runSlotWrites c7Writes initSlots).slots 7 = none := by
  have h := c7_ring_buffer c7Writes (by norm_num [c7Writes])
  have h5 := (h.2.2.1 5 (by norm_num [c7Writes]) (by norm_num [c7Writes])).1
  have h1 := (h.2.2.1 1 (by norm_num [c7Writes]) (by norm_num [c7Writes])).1
  exact ⟨h5, h1, h.2.1 7 (by norm_num)⟩

/-! ## C3 — auto-backup fan-out -/

/-- An empty store, as seen by the first tier of the C3 run. -/
def c3Store0 : Store := { workers := [], projects := [], workEntries := [] }

/-- A store holding one worker, as seen by the second tier of the C3 run. -/
def c3Store1 : Store :=
  { workers := [{ id := 1, updatedAt := some 1, createdAt := some 1, timestamp := none
                  deleted := false, deletedAt := none, payload := 0 }]
    projects := [], workEntries := [] }

/-- A store trace on which a write lands between the first and the second
tier's `loadAllData()`. -/
def c3Trace : Nat → Store := fun n => if n = 0 then c3Store0 else c3Store1

/-- Counterexample to C3: within one `triggerAutoBackup()` fan-out each tier
loads the store and assembles its own snapshot document, so when the store
changes between the sequential tier writes the localStorage-slot tier and
the OPFS tier write *different* documents, and with all three tiers enabled
the snapshot is assembled three times, not once. -/
theorem c3_counterexample :
    (triggerAutoBackup c3Trace (fun _ => 0) true false).1.slotDoc
        = createBackupObject 0 c3Store0 ∧
      (triggerAutoBackup c3Trace (fun _ => 0) true false).1.opfsDoc
        = some (createBackupObject 0 c3Store1) ∧
      createBackupObject 0 c3Store0 ≠ createBackupObject 0 c3Store1 ∧
      (triggerAutoBackup c3Trace (fun _ => 0) true true).2 = 3 ∧
      (3 : Nat) ≠ 1 := by
  refine ⟨rfl, rfl, by decide, rfl, by decide⟩

/-- Claim C3 amended: each enabled tier of `triggerAutoBackup()` assembles
its own snapshot from the store state at the time of its own (sequential)
load — one assembly per enabled tier rather than a single shared one; when
the store does not change during the fan-out and the tiers read the same
clock value, all enabled tiers do write equal documents. -/
theorem c3_fanout_amended (s : Store) (t : Nat) (storeAt : Nat → Store)
    (timeAt : Nat → Nat) (opfs fs : Bool)
    (hs : ∀ n, storeAt n = s) (ht : ∀ n, timeAt n = t) :
    (triggerAutoBackup storeAt timeAt opfs fs).1.slotDoc = createBackupObject t s ∧
      (opfs = true →
        (triggerAutoBackup storeAt timeAt opfs fs).1.opfsDoc
          = some (createBackupObject t s)) ∧
      (opfs = false → (triggerAutoBackup storeAt timeAt opfs fs).1.opfsDoc = none) ∧
      (fs = true →
        (triggerAutoBackup storeAt timeAt opfs fs).1.fsDoc
          = some (createBackupObject t s)) ∧
      (fs = false → (triggerAutoBackup storeAt timeAt opfs fs).1.fsDoc = none) ∧
      (triggerAutoBackup storeAt timeAt opfs fs).2
        = 1 + (if opfs then 1 else 0) + (if fs then 1 else 0) := by
  cases opfs <;> cases fs <;>
    simp [triggerAutoBackup, hs, ht]

/-- Witness for the amended C3: with a constant store trace, a constant
clock, and both optional tiers enabled, all three tiers write the same
document and three assemblies happen. -/
theorem c3_witness :
    (triggerAutoBackup (fun _ => c3Store1) (fun _ => 4) true true).1.slotDoc
        = createBackupObject 4 c3Store1 ∧
      (triggerAutoBackup (fun _ => c3Store1) (fun _ => 4) true true).1.opfsDoc
        = some (createBackupObject 4 c3Store1) ∧
      (triggerAutoBackup (fun _ => c3Store1) (fun _ => 4) true true).1.fsDoc
        = some (createBackupObject 4 c3Store1) := by
  have h := c3_fanout_amended c3Store1 4 (fun _ => c3Store1) (fun _ => 4) true true
    (fun _ => rfl) (fun _ => rfl)
  exact ⟨h.1, h.2.1 rfl, h.2.2.2.1 rfl⟩

/-! ## C2 — preview/apply equivalence -/

theorem find?_cons_neg (q : Rec → Bool) (a : Rec) (l : List Rec) (h : q a = false) :
    (a :: l).find? q = l.find? q :=
  List.find?_cons_of_neg l (show ¬ q a = true by simp [h])

theorem findIndex_none_iff (p : Rec → Bool) (l : List Rec) :
    findIndex p l = none ↔ l.find? p = none := by
  induction l with
  | nil => simp [findIndex]
  | cons x xs ih =>
    cases hx : p x with
    | true => simp [findIndex, hx, List.find?_cons_of_pos _ hx]
    | false => simp [findIndex, hx, find?_cons_neg p x xs hx, ih]

theorem findIndex_some_spec (p : Rec → Bool) (l : List Rec) (i : Nat) :
    findIndex p l = some i →
      ∃ x, l.get? i = some x ∧ l.find? p = some x ∧ p x = true := by
  induction l generalizing i with
  | nil => intro h; simp [findIndex] at h
  | cons y ys ih =>
    intro h
    cases hy : p y with
    | true =>
      simp [findIndex, hy] at h
      subst h
      exact ⟨y, rfl, List.find?_cons_of_pos _ hy, hy⟩
    | false =>
      simp [findIndex, hy] at h
      obtain ⟨j, hj, hji⟩ := h
      subst hji
      obtain ⟨x, hg, hf, hp⟩ := ih j hj
      exact ⟨x, by simpa using hg, by rw [find?_cons_neg p y ys hy]; exact hf, hp⟩

theorem find?_concat_of_neg (l : List Rec) (a : Rec) (q : Rec → Bool)
    (ha : q a = false) :
    (l ++ [a]).find? q = l.find? q := by
  induction l with
  | nil => simp [List.find?, ha]
  | cons y ys ih =>
    cases hy : q y with
    | true =>
      rw [List.cons_append, List.find?_cons_of_pos _ hy, List.find?_cons_of_pos _ hy]
    | false =>
      rw [List.cons_append, find?_cons_neg q y (ys ++ [a]) hy, find?_cons_neg q y ys hy]
      exact ih

theorem find?_set_of_neg (l : List Rec) (i : Nat) (a : Rec) (q : Rec → Bool)
    (hold : ∀ x, l.get? i = some x → q x = false) (ha : q a = false) :
    (l.set i a).find? q = l.find? q := by
  induction l generalizing i with
  | nil => simp
  | cons y ys ih =>
    cases i with
    | zero =>
      have hy : q y = false := hold y rfl
      show (a :: ys).find? q = (y :: ys).find? q
      rw [find?_cons_neg q a ys ha, find?_cons_neg q y ys hy]
    | succ j =>
      show (y :: ys.set j a).find? q = (y :: ys).find? q
      cases hy : q y with
      | true => rw [List.find?_cons_of_pos _ hy, List.find?_cons_of_pos _ hy]
      | false =>
        rw [find?_cons_neg q y (ys.set j a) hy, find?_cons_neg q y ys hy]
        exact ih j (fun x hx => hold x hx)

/-- Core agreement: as long as the incoming ids are pairwise distinct and the
evolving merged list agrees with the original live list on the first match of
every remaining incoming id, the import loop produces exactly the counters of
the analysis loop. -/
theorem mergeCounts_agree (inc : List Rec) (merged live : List Rec)
    (c : Counts) (conf : Nat)
    (hnodup : (inc.map (fun r => r.id)).Nodup)
    (hagree : ∀ r ∈ inc,
      merged.find? (fun w => w.id == r.id) = live.find? (fun w => w.id == r.id)) :
    (inc.foldl mergeStep (merged, c, conf)).2 = analyzeCol live inc (c, conf) := by
  induction inc generalizing merged c conf with
  | nil => rfl
  | cons r rest ih =>
    have hagr := hagree r (List.mem_cons_self r rest)
    have hcons : (∀ x ∈ rest, ¬ x.id = r.id) ∧ (rest.map (fun x => x.id)).Nodup := by
      simpa using hnodup
    have hnd : (rest.map (fun x => x.id)).Nodup := hcons.2
    have hne : ∀ r2 ∈ rest, (r.id == r2.id) = false := fun r2 hr2 =>
      beq_eq_false_iff_ne.mpr (Ne.symm (hcons.1 r2 hr2))
    show (rest.foldl mergeStep (mergeStep (merged, c, conf) r)).2
        = analyzeCol live rest (analyzeStep live (c, conf) r)
    cases hfi : findIndex (fun w => w.id == r.id) merged with
    | none =>
      have hfm : merged.find? (fun w => w.id == r.id) = none :=
        (findIndex_none_iff _ _).mp hfi
      have hfl : live.find? (fun w => w.id == r.id) = none := by
        rw [← hagr]; exact hfm
      have hstep : mergeStep (merged, c, conf) r
          = (merged ++ [r], { c with added := c.added + 1 }, conf) := by
        simp [mergeStep, hfi]
      have hastep : analyzeStep live (c, conf) r
          = ({ c with added := c.added + 1 }, conf) := by
        simp [analyzeStep, hfl]
      rw [hstep, hastep]
      apply ih _ _ _ hnd
      intro r2 hr2
      rw [find?_concat_of_neg merged r _ (hne r2 hr2)]
      exact hagree r2 (List.mem_cons_of_mem _ hr2)
    | some i =>
      obtain ⟨ex, hget, hfm, hpx⟩ := findIndex_some_spec _ _ _ hfi
      have hexid : ex.id = r.id := by simpa using hpx
      have hfl : live.find? (fun w => w.id == r.id) = some ex := by
        rw [← hagr]; exact hfm
      have hget2 : merged[i]? = some ex := by
        simpa [List.get?_eq_getElem?] using hget
      cases hgt : dateGt (effTime r) (effTime ex) with
      | true =>
        have hstep : mergeStep (merged, c, conf) r
            = (merged.set i r, { c with updated := c.updated + 1 }, conf + 1) := by
          simp [mergeStep, hfi, hget2, hgt]
        have hastep : analyzeStep live (c, conf) r
            = ({ c with updated := c.updated + 1 }, conf + 1) := by
          simp [analyzeStep, hfl, hgt]
        rw [hstep, hastep]
        apply ih _ _ _ hnd
        intro r2 hr2
        have hqold : ∀ x, merged.get? i = some x → (x.id == r2.id) = false := by
          intro x hx
          rw [hget] at hx
          cases hx
          rw [hexid]
          exact hne r2 hr2
        rw [find?_set_of_neg merged i r _ hqold (hne r2 hr2)]
        exact hagree r2 (List.mem_cons_of_mem _ hr2)
      | false =>
        have hstep : mergeStep (merged, c, conf) r
            = (merged, { c with skipped := c.skipped + 1 }, conf) := by
          simp [mergeStep, hfi, hget2, hgt]
        have hastep : analyzeStep live (c, conf) r
            = ({ c with skipped := c.skipped + 1 }, conf) := by
          simp [analyzeStep, hfl, hgt]
        rw [hstep, hastep]
        exact ih _ _ _ hnd (fun r2 hr2 => hagree r2 (List.mem_cons_of_mem _ hr2))

deriving instance DecidableEq for Except

/-- A record used twice in the C2 counterexample document. -/
def c2Dup : Rec :=
  { id := 9, updatedAt := some 5, createdAt := some 5, timestamp := none
    deleted := false, deletedAt := none, payload := 0 }

/-- A structurally valid backup document whose `workers` array contains the
same id twice. -/
def c2Doc : BackupDoc :=
  { version := some appVersion, schemaVersion := some 1, createdAt := some 1
    workers := some [c2Dup, c2Dup], projects := some [], entries := some [] }

/-- The empty live store of the C2 counterexample. -/
def c2Store : Store := { workers := [], projects := [], workEntries := [] }

/-- Counterexample to C2: on a structurally valid document that carries the
same worker id twice, `analyzeImport` (which compares every incoming record
against the original live list) counts two additions, while
`importBackup(..., soft)` (which compares against the evolving merged list)
adds the first copy and then skips the second — the preview does not predict
the apply. -/
theorem c2_counterexample :
    (analyzeImport c2Store c2Doc).workers = { added := 2, updated := 0, skipped := 0 } ∧
      (importBackup 0 c2Doc false c2Store).2
        = Except.ok
            { workers := { added := 1, updated := 0, skipped := 1 }
              projects := zeroCounts, entries := zeroCounts, conflictsResolved := 0 } ∧
      (importBackup 0 c2Doc false c2Store).2 ≠ Except.ok (analyzeImport c2Store c2Doc) := by
  refine ⟨by decide, by decide, by decide⟩

/-- Claim C2 amended: for every structurally valid document whose incoming
ids are pairwise distinct within each collection, the per-collection
added/updated/skipped counts (and the conflict counter) of `analyzeImport`
are exactly the summary produced by `importBackup(doc, soft)` against the
same live state. -/
theorem c2_preview_apply_agree (now : Nat) (b : BackupDoc) (s : Store)
    (hv : (validateBackup b).isEmpty = true)
    (hw : ((b.workers.getD []).map (fun r => r.id)).Nodup)
    (hp : ((b.projects.getD []).map (fun r => r.id)).Nodup)
    (he : ((b.entries.getD []).map (fun r => r.id)).Nodup) :
    (importBackup now b false s).2 = Except.ok (analyzeImport s b) := by
  have e1 : (mergeCol s.workers (b.workers.getD []) 0).2
      = analyzeCol s.workers (b.workers.getD []) (zeroCounts, 0) :=
    mergeCounts_agree _ _ _ _ _ hw (fun r hr => rfl)
  have c1 : (mergeCol s.workers (b.workers.getD []) 0).2.2
      = (analyzeCol s.workers (b.workers.getD []) (zeroCounts, 0)).2 :=
    congrArg Prod.snd e1
  have e2 : (mergeCol s.projects (b.projects.getD [])
        (mergeCol s.workers (b.workers.getD []) 0).2.2).2
      = analyzeCol s.projects (b.projects.getD [])
          (zeroCounts, (analyzeCol s.workers (b.workers.getD []) (zeroCounts, 0)).2) := by
    rw [c1]
    exact mergeCounts_agree _ _ _ _ _ hp (fun r hr => rfl)
  have c2 : (mergeCol s.projects (b.projects.getD [])
        (mergeCol s.workers (b.workers.getD []) 0).2.2).2.2
      = (analyzeCol s.projects (b.projects.getD [])
          (zeroCounts, (analyzeCol s.workers (b.workers.getD []) (zeroCounts, 0)).2)).2 :=
    congrArg Prod.snd e2
  have e3 : (mergeCol s.workEntries (b.entries.getD [])
        (mergeCol s.projects (b.projects.getD [])
          (mergeCol s.workers (b.workers.getD []) 0).2.2).2.2).2
      = analyzeCol s.workEntries (b.entries.getD [])
          (zeroCounts, (analyzeCol s.projects (b.projects.getD [])
            (zeroCounts, (analyzeCol s.workers (b.workers.getD []) (zeroCounts, 0)).2)).2) := by
    rw [c2]
    exact mergeCounts_agree _ _ _ _ _ he (fun r hr => rfl)
  have himp : (importBackup now b false s).2
      = Except.ok
          { workers := (mergeCol s.workers (b.workers.getD []) 0).2.1
            projects := (mergeCol s.projects (b.projects.getD [])
              (mergeCol s.workers (b.workers.getD []) 0).2.2).2.1
            entries := (mergeCol s.workEntries (b.entries.getD [])
              (mergeCol s.projects (b.projects.getD [])
                (mergeCol s.workers (b.workers.getD []) 0).2.2).2.2).2.1
            conflictsResolved := (mergeCol s.workEntries (b.entries.getD [])
              (mergeCol s.projects (b.projects.getD [])
                (mergeCol s.workers (b.workers.getD []) 0).2.2).2.2).2.2 } := by
    simp [importBackup, hv]
  have hana : analyzeImport s b
      = { workers := (analyzeCol s.workers (b.workers.getD []) (zeroCounts, 0)).1
          projects := (analyzeCol s.projects (b.projects.getD [])
            (zeroCounts, (analyzeCol s.workers (b.workers.getD []) (zeroCounts, 0)).2)).1
          entries := (analyzeCol s.workEntries (b.entries.getD [])
            (zeroCounts, (analyzeCol s.projects (b.projects.getD [])
              (zeroCounts, (analyzeCol s.workers (b.workers.getD []) (zeroCounts, 0)).2)).2)).1
          conflictsResolved := (analyzeCol s.workEntries (b.entries.getD [])
            (zeroCounts, (analyzeCol s.projects (b.projects.getD [])
              (zeroCounts, (analyzeCol s.workers (b.workers.getD []) (zeroCounts, 0)).2)).2)).2 } :=
    rfl
  rw [himp, hana, congrArg Prod.fst e1, congrArg Prod.fst e2, congrArg Prod.fst e3,
    congrArg Prod.snd e3]

/-- A live store with one worker of id 1 for the C2 witness. -/
def c2LiveStore : Store :=
  { workers := [{ id := 1, updatedAt := some 10, createdAt := some 1, timestamp := none
                  deleted := false, deletedAt := none, payload := 0 }]
    projects := [], workEntries := [] }

/-- A valid document with two distinct worker ids (one newer duplicate of the
live id, one fresh) for the C2 witness. -/
def c2GoodDoc : BackupDoc :=
  { version := some appVersion, schemaVersion := some 1, createdAt := some 2
    workers := some
      [{ id := 1, updatedAt := some 20, createdAt := some 1, timestamp := none
         deleted := false, deletedAt := none, payload := 7 },
       { id := 2, updatedAt := some 3, createdAt := some 3, timestamp := none
         deleted := false, deletedAt := none, payload := 8 }]
    projects := some [], entries := some [] }

/-- Witness for the amended C2 at a concrete document and store. -/
theorem c2_witness :
    (importBackup 7 c2GoodDoc false c2LiveStore).2
      = Except.ok (analyzeImport c2LiveStore c2GoodDoc) :=
  c2_preview_apply_agree 7 c2GoodDoc c2LiveStore (by decide) (by decide) (by decide)
    (by decide)

end MST
